import Mathlib

set_option linter.unusedVariables false

/-!
Verification development for the WeatherData repository.

The repository has two independent units:

* `src/aggregate.py` — the Aggregator: five group/aggregate queries over a
  measurement table (spatial, temporal, running-mean, difference aggregation and
  the per-station pivot mean).  Spark dataframes are modelled as Lean lists of
  rows; Spark's `mean`, `stddev_samp` and `count` aggregates, its outer join on
  a key column, `fillna` and `sort` are modelled by explicit list functions.
* `src/transform_in_spark.py` — the Area Resolver: a recursive polygon
  containment probe (`check_in_polygons`) over an untyped nested-list geometry
  and the catalog lookup (`find_area`).  Python values appearing in geometries
  are modelled by the inductive `GeoVal`; Python exceptions by `Except PyError`.

Numeric cells are modelled by `Rat` (the doubles of the engine, idealised as
exact arithmetic).
-/

namespace WeatherData

/- Modelled from the spec: the `cols` module imported by both source files is not
part of the sources under src/.  It provides fixed, pairwise distinct
column-name constants and the provenance tag; the spec's examples show the tag
value "automated".  The concrete strings below are placeholders — the code only
relies on their distinctness. -/

namespace cols

def year : String := "year"

def mean : String := "mean"

def stddev : String := "stddev"

def stations : String := "stations"

def running : String := "running_mean"

def diff : String := "diff"

def temperature : String := "temperature"

def pivot_temp : String := "pivot_temp"

def sdo_id : String := "sdo_id"

def area : String := "area"

def automated : String := "automated"

end cols

/-- One measurement row of the Spark dataframe `sdf`.  `area` is the content of
the area column selected by `area_col_name` and `value` the content of the value
column selected by `value_col_name` (both are parameters of the Python
functions; the selection itself is schema plumbing outside the logic).  Nullable
columns are `Option`-valued. -/
structure Row where
  sdo_id : Nat
  year : Int
  area : Option String
  value : Option Rat
  temperature : Option Rat
  pivot_temp : Option Rat
deriving DecidableEq, Repr

/-- One output row of the spatial/temporal/difference aggregations: the group
key (`cols.area` resp. `cols.year`), the `cols.mean`, `cols.stddev` and
`cols.stations` cells.  `stations` is `Option`-valued because the outer join
introduces nulls that are only removed by the subsequent `fillna`. -/
structure AggRow (κ : Type) where
  key : κ
  mean : Option Rat
  stddev : Option Rat
  stations : Option Nat
deriving DecidableEq, Repr

/-- One output row of `aggregate_running_mean` after its
`select([cols.year, cols.running])`: just the year and the running mean. -/
structure RunRow where
  year : Int
  running : Option Rat
deriving DecidableEq, Repr

/-- One output row of `get_pivotal_mean`: station id and pivot temperature. -/
structure PivotRow where
  sdo_id : Nat
  pivot_temp : Option Rat
deriving DecidableEq, Repr

/-- Spark's `mean` aggregate over the non-null values of a group: null when
there is no (non-null) value, else the arithmetic mean. -/
def meanAgg (vs : List Rat) : Option Rat :=
  if vs.isEmpty then none else some (vs.sum / (vs.length : Rat))

/-- Spark's `stddev` (= `stddev_samp`) aggregate over the non-null values of a
group, up to the engine-side square root: null when there are fewer than two
values (the engine's default since 3.1 returns null for counts 0 and 1), else
the sample variance.  No claim depends on the numeric standard deviation, only
on its nullness, which the strictly monotone square root preserves. -/
def stddevAgg (vs : List Rat) : Option Rat :=
  if vs.length < 2 then none
  else
    some ((vs.map (fun v => (v - vs.sum / (vs.length : Rat)) ^ 2)).sum /
      ((vs.length : Rat) - 1))

/-- Spark's `groupby(key).agg(mean, stddev, count)` over a dataframe: one row
per distinct key of the data, with the three aggregates computed over the
non-null values (`valOf`) of that key's rows.  `keyOf` returns the group key of
a row (`none` never occurs for the filtered inputs the sources pass in). -/
def groupAgg {κ : Type} [DecidableEq κ] (keyOf : Row → Option κ)
    (valOf : Row → Option Rat) (rows : List Row) : List (AggRow κ) :=
  ((rows.filterMap keyOf).dedup).map (fun k =>
    let vs := (rows.filter (fun r => keyOf r == some k)).filterMap valOf
    ⟨k, meanAgg vs, stddevAgg vs, some vs.length⟩)

/-- Spark's full outer join, on the key column, of an aggregated table with the
one-columned domain table: the aggregated rows, followed by a null-padded row
for every domain key that matched no aggregated row. -/
def outerJoin {κ : Type} [DecidableEq κ] (agg : List (AggRow κ)) (domain : List κ) :
    List (AggRow κ) :=
  agg ++ (domain.filter (fun k => !(agg.map AggRow.key).contains k)).map
    (fun k => ⟨k, none, none, none⟩)

/-- Spark's `fillna(0, cols.stations)`: replace a null station count by 0. -/
def fillnaStations {κ : Type} (l : List (AggRow κ)) : List (AggRow κ) :=
  l.map (fun r => ⟨r.key, r.mean, r.stddev, some (r.stations.getD 0)⟩)

/-- Insertion step of the ascending sort on an integer key column. -/
def orderedInsertKey {α : Type} (key : α → Int) (a : α) : List α → List α
  | [] => [a]
  | b :: bs => if key a ≤ key b then a :: b :: bs else b :: orderedInsertKey key a bs

/-- Spark's `sort(column, ascending=True)` on an integer key column, modelled
as insertion sort (a deterministic sorted permutation of the input). -/
def sortByKey {α : Type} (key : α → Int) : List α → List α
  | [] => []
  | a :: as => orderedInsertKey key a (sortByKey key as)

/-- `aggregate_spatially` from src/aggregate.py: keep the rows with a non-null
area, the given year and a non-null value; group by area with mean/stddev/count
of the value column; outer-join against the full area list; fill null station
counts with 0.  (The `withColumnRenamed` step is schema plumbing: the group key
is the `key` field.) -/
def aggregate_spatially (sdf : List Row) (year : Int) (full_area_list : List String) :
    List (AggRow String) :=
  let filtered := sdf.filter (fun r => r.area.isSome && (r.year == year) && r.value.isSome)
  fillnaStations
    (outerJoin (groupAgg (fun r => r.area) (fun r => r.value) filtered) full_area_list)

/-- `aggregate_temporarly` from src/aggregate.py: keep the rows whose area
column equals the given area; group by year with mean/stddev/count of the value
column; outer-join against the full year list; fill null station counts with 0;
sort ascending by year. -/
def aggregate_temporarly (sdf : List Row) (area : String) (sdf_years : List Int) :
    List (AggRow Int) :=
  let filtered := sdf.filter (fun r => r.area == some area)
  sortByKey AggRow.key
    (fillnaStations
      (outerJoin (groupAgg (fun r => some r.year) (fun r => r.value) filtered) sdf_years))

/-- The `cols.diff` column of `aggregate_differences`:
`col(cols.temperature) - col(cols.pivot_temp)`, null when either operand is
null (Spark null propagation). -/
def diffOf (r : Row) : Option Rat :=
  match r.temperature, r.pivot_temp with
  | some t, some p => some (t - p)
  | _, _ => none

/-- `aggregate_differences` from src/aggregate.py: keep the rows whose area
column equals the given area; add the difference column; group by year with
mean/stddev/count of the differences; outer-join against the full year list;
fill null station counts with 0; sort ascending by year. -/
def aggregate_differences (sdf : List Row) (area : String) (sdf_years : List Int) :
    List (AggRow Int) :=
  let filtered := sdf.filter (fun r => r.area == some area)
  sortByKey AggRow.key
    (fillnaStations
      (outerJoin (groupAgg (fun r => some r.year) diffOf filtered) sdf_years))

/-- The value of the running-mean window column for a row with year `y`:
Spark's `mean(value).over(Window.orderBy(year).rangeBetween(-6, currentRow))`,
i.e. the mean of the non-null values of all rows of the (area-filtered)
dataframe whose year lies in the inclusive range `[y - 6, y]`. -/
def windowMean (filtered : List Row) (y : Int) : Option Rat :=
  meanAgg ((filtered.filter (fun s => decide (y - 6 ≤ s.year) && decide (s.year ≤ y))).filterMap
    (fun r => r.value))

/-- `aggregate_running_mean` from src/aggregate.py: keep the rows whose area
column equals the given area; add the 7-year range-window mean column;
`drop_duplicates([cols.year])` (one row per data year — all rows of a year carry
the same window value, so the kept representative does not matter);
`select([cols.year, cols.running])`; outer-join against the full year list; sort
ascending by year.  There is no count column and no `fillna`. -/
def aggregate_running_mean (sdf : List Row) (area : String) (sdf_years : List Int) :
    List RunRow :=
  let filtered := sdf.filter (fun r => r.area == some area)
  let dataYears := (filtered.map (fun r => r.year)).dedup
  let table := dataYears.map (fun y => RunRow.mk y (windowMean filtered y))
  sortByKey RunRow.year
    (table ++ (sdf_years.filter (fun y => !dataYears.contains y)).map (fun y => ⟨y, none⟩))

/-- `get_pivotal_mean` from src/aggregate.py: keep the rows with
`start_year <= year <= end_year`; group by station id; mean of the temperature
column.  No join and no sort: stations without rows in the interval are absent
from the result. -/
def get_pivotal_mean (df : List Row) (start_year end_year : Int) : List PivotRow :=
  let filtered := df.filter (fun r => decide (start_year ≤ r.year) && decide (r.year ≤ end_year))
  ((filtered.map (fun r => r.sdo_id)).dedup).map (fun s =>
    ⟨s, meanAgg ((filtered.filter (fun r => r.sdo_id == s)).filterMap (fun r => r.temperature))⟩)

/-- Output schema of `aggregate_spatially` (after the rename, the aggregation
aliases and the join on the one-columned area list). -/
def aggregate_spatially_columns : List String :=
  [cols.area, cols.mean, cols.stddev, cols.stations]

/-- Output schema of `aggregate_temporarly`. -/
def aggregate_temporarly_columns : List String :=
  [cols.year, cols.mean, cols.stddev, cols.stations]

/-- Output schema of `aggregate_running_mean`: its
`select([cols.year, cols.running])` keeps only the year and the running mean;
the join against the one-columned year list adds no further column. -/
def aggregate_running_mean_columns : List String :=
  [cols.year, cols.running]

/-- Output schema of `aggregate_differences`. -/
def aggregate_differences_columns : List String :=
  [cols.year, cols.mean, cols.stddev, cols.stations]

/-- The output row the group/aggregate/outer-join/fillna pipeline produces for
a key `k`: the three aggregates over the non-null values of the rows with key
`k` (for a key without such rows this is `⟨k, none, none, some 0⟩`, the
null-padded row after `fillna`). -/
def canonRow {κ : Type} [DecidableEq κ] (keyOf : Row → Option κ)
    (valOf : Row → Option Rat) (rows : List Row) (k : κ) : AggRow κ :=
  let vs := (rows.filter (fun r => keyOf r == some k)).filterMap valOf
  ⟨k, meanAgg vs, stddevAgg vs, some vs.length⟩

/-- The key column of a full outer join between a table with key list `gk` and
the one-columned domain table `domain`. -/
def joinKeys {κ : Type} [DecidableEq κ] (gk domain : List κ) : List κ :=
  gk ++ domain.filter (fun k => !gk.contains k)

/-- A Python value as it may occur inside a GeoJSON geometry: a number, a
string, or a (possibly nested) list.  `isinstance(v, list)` of the source is
the test for the `lst` constructor. -/
inductive GeoVal : Type where
  | num : Rat → GeoVal
  | str : String → GeoVal
  | lst : List GeoVal → GeoVal

/-- The Python exceptions the Area Resolver can raise: `IndexError` from
indexing `[0]` into an empty list, `ValueError` from the geometry library's
polygon constructor. -/
inductive PyError : Type where
  | indexError : PyError
  | valueError : PyError
deriving DecidableEq, Repr

instance {ε α : Type} [DecidableEq ε] [DecidableEq α] : DecidableEq (Except ε α) := fun a b =>
  match a, b with
  | .ok x, .ok y =>
    if h : x = y then .isTrue (by rw [h]) else .isFalse (by intro hc; cases hc; exact h rfl)
  | .error x, .error y =>
    if h : x = y then .isTrue (by rw [h]) else .isFalse (by intro hc; cases hc; exact h rfl)
  | .ok _, .error _ => .isFalse (by intro hc; cases hc)
  | .error _, .ok _ => .isFalse (by intro hc; cases hc)

/-- Models the external geometry library's vertex parsing: a vertex must be a
two-element numeric sequence, anything else makes the polygon constructor
raise. -/
def buildCoordPair : GeoVal → Except PyError (Rat × Rat)
  | .lst [.num x, .num y] => .ok (x, y)
  | _ => .error .valueError

/-- Parse the vertex list of a ring, propagating the first failure. -/
def buildRingAux : List GeoVal → Except PyError (List (Rat × Rat))
  | [] => .ok []
  | v :: vs =>
    match buildCoordPair v, buildRingAux vs with
    | .ok p, .ok ps => .ok (p :: ps)
    | .error e, _ => .error e
    | _, .error e => .error e

/-- Models the external geometry library's `Polygon(ring)` constructor: parse
every vertex and require at least three of them, otherwise raise. -/
def buildRing (l : List GeoVal) : Except PyError (List (Rat × Rat)) :=
  match buildRingAux l with
  | .ok ps => if ps.length < 3 then .error .valueError else .ok ps
  | .error e => .error e

/-- One directed edge of the closed ring, for the ray-casting containment
test: does the horizontal ray from `(x, y)` to the right cross this edge? -/
def edgeCrosses (x y : Rat) (e : (Rat × Rat) × (Rat × Rat)) : Bool :=
  (decide (y < e.1.2) != decide (y < e.2.2)) &&
    decide (x < (e.2.1 - e.1.1) * (y - e.1.2) / (e.2.2 - e.1.2) + e.1.1)

/-- The edges of a ring, closing it from the last vertex back to the first. -/
def ringEdges (ring : List (Rat × Rat)) : List ((Rat × Rat) × (Rat × Rat)) :=
  match ring with
  | [] => []
  | p :: _ => ring.zip (ring.drop 1 ++ [p])

/-- Models the external geometry library's containment test
(`Polygon(ring).contains(Point(lon, lat))`) by even-odd ray casting: the point
is inside iff the rightward horizontal ray crosses an odd number of ring
edges.  This agrees with the library for points not on the ring's boundary,
which is all the development evaluates. -/
def pointInRing (x y : Rat) (ring : List (Rat × Rat)) : Bool :=
  (ringEdges ring).foldl (fun b e => b != edgeCrosses x y e) false

/-- `check_in_polygons` from src/transform_in_spark.py, with Python exceptions
made explicit.  The branches mirror the source line by line:
`polygons` not a list, or an empty list (the `for` loop body never runs), falls
through to `return False`; otherwise the loop inspects only its first element
`polygon` (every branch of the body returns).  `polygon[0]` on an empty list
and `polygon[0][0]` on a `[...]` whose first element is the empty list raise
`IndexError`; a `polygon` that is not a list, or whose first element is not a
list, hits the `# invalid argument` branch and returns `False`; a first element
that is a list of non-lists is a vertex, so `Polygon(polygon)` is built and
queried; a first element that is a list of lists triggers the recursive
descent into `polygon`. -/
def check_in_polygons (lon lat : Rat) (polygons : GeoVal) : Except PyError Bool :=
  match polygons with
  | .lst [] => .ok false
  | .lst (polygon :: _) =>
    match polygon with
    | .lst [] => .error .indexError
    | .lst (first :: rest) =>
      match first with
      | .lst [] => .error .indexError
      | .lst (ff :: _) =>
        match ff with
        | .lst _ => check_in_polygons lon lat polygon
        | _ =>
          match buildRing (first :: rest) with
          | .ok ring => .ok (pointInRing lon lat ring)
          | .error e => .error e
      | _ => .ok false
    | _ => .ok false
  | _ => .ok false

/-- One feature of the GeoJSON catalog passed to `find_area`: its
`geometry.coordinates` value and its `properties` names (NAME_0 = nation,
NAME_1 = state, NAME_3 = county). -/
structure Feature where
  geometry : GeoVal
  NAME_0 : String
  NAME_1 : String
  NAME_3 : String

/-- The hardcoded nation-name translation table of `find_area`. -/
def nation_dict : List (String × String) := [("Germany", "Deutschland")]

/-- The `if nation in nation_dict.keys()` rewrite applied to the NAME_0 field. -/
def translateNation (nation : String) : String :=
  match nation_dict.lookup nation with
  | some t => t
  | none => nation

/-- `find_area` from src/transform_in_spark.py, iterating over
`geojson['features']` (modelled as the list of features), with Python
exceptions from the containment probe made explicit: the first feature whose
geometry contains the point yields its translated nation, state, county and the
`cols.automated` tag; if none does, the all-null tuple with the tag. -/
def find_area (lon lat : Rat) (features : List Feature) :
    Except PyError (Option String × Option String × Option String × String) :=
  match features with
  | [] => .ok (none, none, none, cols.automated)
  | f :: fs =>
    match check_in_polygons lon lat f.geometry with
    | .error e => .error e
    | .ok true =>
      .ok (some (translateNation f.NAME_0), some f.NAME_1, some f.NAME_3, cols.automated)
    | .ok false => find_area lon lat fs

/-- Maximum nesting depth along the probed (first-element) path of a geometry
value: the path `check_in_polygons` can descend along. -/
def probeDepth : GeoVal → Nat
  | .lst (p :: _) => 1 + probeDepth p
  | _ => 0

/-- Fuel-indexed variant of `check_in_polygons`: performs at most `fuel`
unfoldings and reports `none` when the fuel runs out.  Used to state that the
recursion of the source terminates within a number of steps bounded by the
nesting depth of its input. -/
def checkFuel (fuel : Nat) (lon lat : Rat) (polygons : GeoVal) :
    Option (Except PyError Bool) :=
  match fuel with
  | 0 => none
  | fuel + 1 =>
    match polygons with
    | .lst [] => some (.ok false)
    | .lst (polygon :: _) =>
      match polygon with
      | .lst [] => some (.error .indexError)
      | .lst (first :: rest) =>
        match first with
        | .lst [] => some (.error .indexError)
        | .lst (ff :: _) =>
          match ff with
          | .lst _ => checkFuel fuel lon lat polygon
          | _ =>
            match buildRing (first :: rest) with
            | .ok ring => some (.ok (pointInRing lon lat ring))
            | .error e => some (.error e)
        | _ => some (.ok false)
      | _ => some (.ok false)
    | _ => some (.ok false)

/-- The area lookup as the specification's words describe it: iterate the
features in catalog order, return the names of the first feature whose
geometry contains the point — with the fixed translation table applied to the
nation field only — and the all-null tuple when no feature contains it; the
fixed provenance tag is appended in both cases. -/
def findAreaSpec (lon lat : Rat) (features : List Feature) :
    Option String × Option String × Option String × String :=
  match features.find? (fun f => check_in_polygons lon lat f.geometry == .ok true) with
  | some f => (some (translateNation f.NAME_0), some f.NAME_1, some f.NAME_3, cols.automated)
  | none => (none, none, none, cols.automated)

/-- The difference aggregation as the claim's words describe it: restrict to
the rows of the fixed area; take, per row, the difference of observed value and
per-station pivot; for every key of the full outer join's key column (the data
years joined with the full year domain), the mean, sample standard deviation
and count of the non-null differences of that year's rows (zero count and null
aggregates for a year without data); rows sorted ascending by year. -/
def aggregate_differences_spec (sdf : List Row) (area : String) (sdf_years : List Int) :
    List (AggRow Int) :=
  let filtered := sdf.filter (fun r => r.area == some area)
  let dataYears := (filtered.map (fun r => r.year)).dedup
  (sortByKey id (joinKeys dataYears sdf_years)).map
    (fun y => canonRow (fun r => some r.year) diffOf filtered y)

/-- The square test ring of the spec's example, as the vertex list of one
GeoJSON polygon: [(0,0), (0,10), (10,10), (10,0)]. -/
def squareRing : GeoVal :=
  .lst [.lst [.num 0, .num 0], .lst [.num 0, .num 10],
    .lst [.num 10, .num 10], .lst [.num 10, .num 0]]

/-- A second, disjoint square ring [(20,20), (20,30), (30,30), (30,20)]. -/
def farRing : GeoVal :=
  .lst [.lst [.num 20, .num 20], .lst [.num 20, .num 30],
    .lst [.num 30, .num 30], .lst [.num 30, .num 20]]

/-- The one-feature catalog of the spec's example: the square ring with
NAME_0 = "Germany", NAME_1 = "Bavaria", NAME_3 = "Munich". -/
def munichFeature : Feature := ⟨.lst [squareRing], "Germany", "Bavaria", "Munich"⟩

/-- A measurement row of station 1, year 2000, area "A", value 10. -/
def rowA2000 : Row := ⟨1, 2000, some "A", some 10, none, none⟩

/-- A measurement row of station 2, year 2000, area "A", value 20. -/
def rowB2000 : Row := ⟨2, 2000, some "A", some 20, none, none⟩

/-- A measurement row of station 3, year 2001, area "A", temperature 7 and
pivot temperature 3. -/
def rowC2001 : Row := ⟨3, 2001, some "A", some 5, some 7, some 3⟩

/-! Helper lemmas about the sort model. -/

theorem orderedInsertKey_perm {α : Type} (key : α → Int) (a : α) (l : List α) :
    List.Perm (orderedInsertKey key a l) (a :: l) := by
  induction l with
  | nil => simp [orderedInsertKey]
  | cons b bs ih =>
    by_cases h : key a ≤ key b
    · simp [orderedInsertKey, h]
    · simp only [orderedInsertKey, if_neg h]
      exact (ih.cons b).trans (List.Perm.swap a b bs)

theorem sortByKey_perm {α : Type} (key : α → Int) (l : List α) :
    List.Perm (sortByKey key l) l := by
  induction l with
  | nil => simp [sortByKey]
  | cons a as ih =>
    exact (orderedInsertKey_perm key a (sortByKey key as)).trans (ih.cons a)

theorem mem_sortByKey {α : Type} {key : α → Int} {l : List α} {a : α} :
    a ∈ sortByKey key l ↔ a ∈ l :=
  (sortByKey_perm key l).mem_iff

theorem countP_sortByKey {α : Type} (key : α → Int) (p : α → Bool) (l : List α) :
    (sortByKey key l).countP p = l.countP p :=
  (sortByKey_perm key l).countP_eq p

theorem orderedInsertKey_map {α β : Type} (key : β → Int) (f : α → β) (a : α) (l : List α) :
    orderedInsertKey key (f a) (l.map f) = (orderedInsertKey (fun x => key (f x)) a l).map f := by
  induction l with
  | nil => simp [orderedInsertKey]
  | cons b bs ih =>
    by_cases h : key (f a) ≤ key (f b)
    · simp [orderedInsertKey, h]
    · simp [orderedInsertKey, h, ih]

theorem sortByKey_map {α β : Type} (key : β → Int) (f : α → β) (l : List α) :
    sortByKey key (l.map f) = (sortByKey (fun x => key (f x)) l).map f := by
  induction l with
  | nil => rfl
  | cons a as ih => simp [sortByKey, ih, orderedInsertKey_map]

theorem orderedInsertKey_pairwise {α : Type} (key : α → Int) (a : α) (l : List α)
    (h : l.Pairwise (fun x y => key x ≤ key y)) :
    (orderedInsertKey key a l).Pairwise (fun x y => key x ≤ key y) := by
  induction l with
  | nil => simp [orderedInsertKey]
  | cons b bs ih =>
    rw [List.pairwise_cons] at h
    obtain ⟨hb, hbs⟩ := h
    by_cases hab : key a ≤ key b
    · simp only [orderedInsertKey, if_pos hab]
      rw [List.pairwise_cons]
      refine ⟨?_, ?_⟩
      · intro x hx
        rcases List.mem_cons.mp hx with hx | hx
        · rw [hx]; exact hab
        · exact le_trans hab (hb x hx)
      · rw [List.pairwise_cons]
        exact ⟨hb, hbs⟩
    · simp only [orderedInsertKey, if_neg hab]
      rw [List.pairwise_cons]
      refine ⟨?_, ih hbs⟩
      intro x hx
      rcases List.mem_cons.mp ((orderedInsertKey_perm key a bs).mem_iff.mp hx) with hx | hx
      · rw [hx]; exact le_of_not_le hab
      · exact hb x hx

theorem sortByKey_pairwise {α : Type} (key : α → Int) (l : List α) :
    (sortByKey key l).Pairwise (fun x y => key x ≤ key y) := by
  induction l with
  | nil => simp [sortByKey]
  | cons a as ih => exact orderedInsertKey_pairwise key a (sortByKey key as) ih

/-! Helper lemmas about keys and counting. -/

theorem countP_beq_of_nodup {κ : Type} [DecidableEq κ] {l : List κ} (h : l.Nodup) (k : κ) :
    l.countP (fun x => x == k) = if k ∈ l then 1 else 0 := by
  induction l with
  | nil => simp
  | cons a as ih =>
    rw [List.nodup_cons] at h
    obtain ⟨ha, has⟩ := h
    rw [List.countP_cons, ih has]
    by_cases hk : a = k
    · subst hk
      simp [ha]
    · simp [hk, Ne.symm hk, List.mem_cons]

theorem nodup_joinKeys {κ : Type} [DecidableEq κ] {gk D : List κ} (hg : gk.Nodup)
    (hD : D.Nodup) : (joinKeys gk D).Nodup := by
  rw [joinKeys, List.nodup_append]
  refine ⟨hg, hD.filter _, ?_⟩
  intro k hk hk2
  rw [List.mem_filter] at hk2
  simp only [List.contains, Bool.not_eq_true', List.elem_eq_mem,
    decide_eq_false_iff_not] at hk2
  exact hk2.2 hk

theorem mem_joinKeys {κ : Type} [DecidableEq κ] {gk D : List κ} {k : κ} :
    k ∈ joinKeys gk D ↔ k ∈ gk ∨ k ∈ D := by
  rw [joinKeys, List.mem_append, List.mem_filter]
  simp only [List.contains, Bool.not_eq_true', List.elem_eq_mem, decide_eq_false_iff_not]
  constructor
  · rintro (h | ⟨h, _⟩)
    · exact Or.inl h
    · exact Or.inr h
  · rintro (h | h)
    · exact Or.inl h
    · by_cases hg : k ∈ gk
      · exact Or.inl hg
      · exact Or.inr ⟨h, hg⟩

/-! The canonical form of the group/aggregate/outer-join/fillna pipeline. -/

theorem groupAgg_eq_map_canon {κ : Type} [DecidableEq κ] (keyOf : Row → Option κ)
    (valOf : Row → Option Rat) (rows : List Row) :
    groupAgg keyOf valOf rows =
      ((rows.filterMap keyOf).dedup).map (canonRow keyOf valOf rows) := rfl

theorem canon_absent {κ : Type} [DecidableEq κ] (keyOf : Row → Option κ)
    (valOf : Row → Option Rat) (rows : List Row) {k : κ}
    (h : k ∉ (rows.filterMap keyOf).dedup) :
    canonRow keyOf valOf rows k = ⟨k, none, none, some 0⟩ := by
  have hnil : rows.filter (fun r => keyOf r == some k) = [] := by
    rw [List.filter_eq_nil_iff]
    intro r hr hbeq
    apply h
    rw [List.mem_dedup, List.mem_filterMap]
    rw [beq_iff_eq] at hbeq
    exact ⟨r, hr, hbeq⟩
  rw [canonRow]
  simp [hnil, meanAgg, stddevAgg]

theorem pipeline_canon {κ : Type} [DecidableEq κ] (keyOf : Row → Option κ)
    (valOf : Row → Option Rat) (rows : List Row) (D : List κ) :
    fillnaStations (outerJoin (groupAgg keyOf valOf rows) D) =
      (joinKeys ((rows.filterMap keyOf).dedup) D).map (canonRow keyOf valOf rows) := by
  rw [groupAgg_eq_map_canon, outerJoin]
  have hkeys : ((((rows.filterMap keyOf).dedup).map (canonRow keyOf valOf rows)).map
      AggRow.key) = (rows.filterMap keyOf).dedup := by
    rw [List.map_map]
    exact List.map_id'' (fun k => rfl) _
  rw [hkeys, joinKeys, fillnaStations, List.map_append, List.map_append]
  congr 1
  · rw [List.map_map]
    rfl
  · rw [List.map_map]
    apply List.map_congr_left
    intro k hk
    have hk' : k ∉ (rows.filterMap keyOf).dedup := by
      rw [List.mem_filter] at hk
      simp only [List.contains, Bool.not_eq_true', List.elem_eq_mem,
        decide_eq_false_iff_not] at hk
      exact hk.2
    show (⟨k, none, none, some 0⟩ : AggRow κ) = canonRow keyOf valOf rows k
    rw [canon_absent keyOf valOf rows hk']

theorem pipeline_countP {κ : Type} [DecidableEq κ] (keyOf : Row → Option κ)
    (valOf : Row → Option Rat) (rows : List Row) {D : List κ} (hD : D.Nodup)
    {k : κ} (hk : k ∈ D) :
    (fillnaStations (outerJoin (groupAgg keyOf valOf rows) D)).countP
      (fun r => r.key == k) = 1 := by
  rw [pipeline_canon, List.countP_map]
  have h1 : (joinKeys ((rows.filterMap keyOf).dedup) D).countP
      ((fun r => r.key == k) ∘ canonRow keyOf valOf rows) =
      (joinKeys ((rows.filterMap keyOf).dedup) D).countP (fun x => x == k) := by
    apply List.countP_congr
    intro x hx
    rfl
  rw [h1, countP_beq_of_nodup (nodup_joinKeys (List.nodup_dedup _) hD) k,
    if_pos (mem_joinKeys.mpr (Or.inr hk))]

theorem pipeline_mem_absent {κ : Type} [DecidableEq κ] (keyOf : Row → Option κ)
    (valOf : Row → Option Rat) (rows : List Row) {D : List κ}
    {k : κ} (hk : k ∈ D) (habs : k ∉ (rows.filterMap keyOf).dedup) :
    (⟨k, none, none, some 0⟩ : AggRow κ) ∈
      fillnaStations (outerJoin (groupAgg keyOf valOf rows) D) := by
  rw [pipeline_canon, ← canon_absent keyOf valOf rows habs]
  exact List.mem_map_of_mem _ (mem_joinKeys.mpr (Or.inr hk))

theorem pipeline_rows {κ : Type} [DecidableEq κ] (keyOf : Row → Option κ)
    (valOf : Row → Option Rat) (rows : List Row) (D : List κ) {r : AggRow κ}
    (hr : r ∈ fillnaStations (outerJoin (groupAgg keyOf valOf rows) D)) :
    ∃ k, r = canonRow keyOf valOf rows k := by
  rw [pipeline_canon] at hr
  obtain ⟨k, _, hk⟩ := List.mem_map.mp hr
  exact ⟨k, hk.symm⟩

theorem canonRow_stddev_null {κ : Type} [DecidableEq κ] (keyOf : Row → Option κ)
    (valOf : Row → Option Rat) (rows : List Row) (k : κ) (n : Nat)
    (h : (canonRow keyOf valOf rows k).stations = some n) (hn : n < 2) :
    (canonRow keyOf valOf rows k).stddev = none := by
  rw [canonRow] at h ⊢
  simp only [Option.some.injEq] at h
  simp only []
  rw [stddevAgg, if_pos (by rw [h]; exact hn)]

theorem canonRow_stations_isSome {κ : Type} [DecidableEq κ] (keyOf : Row → Option κ)
    (valOf : Row → Option Rat) (rows : List Row) (k : κ) :
    (canonRow keyOf valOf rows k).stations.isSome := rfl

theorem spatial_key_absent (rows : List Row) (y : Int) {k : String}
    (h : ∀ r ∈ rows, ¬(r.area = some k ∧ r.year = y)) :
    k ∉ (((rows.filter (fun r => r.area.isSome && (r.year == y) && r.value.isSome)).filterMap
      (fun r => r.area)).dedup) := by
  rw [List.mem_dedup, List.mem_filterMap]
  rintro ⟨r, hr, hkr⟩
  rw [List.mem_filter] at hr
  obtain ⟨hrows, hpred⟩ := hr
  simp only [Bool.and_eq_true, beq_iff_eq] at hpred
  exact h r hrows ⟨hkr, hpred.1.2⟩

theorem area_key_absent (rows : List Row) (a : String) {k : Int}
    (h : ∀ r ∈ rows, ¬(r.area = some a ∧ r.year = k)) :
    k ∉ (((rows.filter (fun r => r.area == some a)).filterMap
      (fun r => some r.year)).dedup) := by
  rw [List.mem_dedup, List.mem_filterMap]
  rintro ⟨r, hr, hkr⟩
  rw [List.mem_filter, beq_iff_eq] at hr
  rw [Option.some.injEq] at hkr
  exact h r hr.1 ⟨hr.2, hkr⟩

/-- C1: for the spatial, the temporal and the difference aggregation, every key
of the supplied full key domain (areas resp. years, assumed free of
duplicates) appears in exactly one output row, and every key absent from the
raw measurement data appears with null mean, null stddev and station count 0 —
not null and not dropped. -/
theorem c1_full_domain_alignment :
    (∀ (rows : List Row) (y : Int) (D : List String), D.Nodup → ∀ k ∈ D,
      (aggregate_spatially rows y D).countP (fun r => r.key == k) = 1 ∧
      ((∀ r ∈ rows, ¬(r.area = some k ∧ r.year = y)) →
        (⟨k, none, none, some 0⟩ : AggRow String) ∈ aggregate_spatially rows y D)) ∧
    (∀ (rows : List Row) (a : String) (D : List Int), D.Nodup → ∀ k ∈ D,
      (aggregate_temporarly rows a D).countP (fun r => r.key == k) = 1 ∧
      ((∀ r ∈ rows, ¬(r.area = some a ∧ r.year = k)) →
        (⟨k, none, none, some 0⟩ : AggRow Int) ∈ aggregate_temporarly rows a D)) ∧
    (∀ (rows : List Row) (a : String) (D : List Int), D.Nodup → ∀ k ∈ D,
      (aggregate_differences rows a D).countP (fun r => r.key == k) = 1 ∧
      ((∀ r ∈ rows, ¬(r.area = some a ∧ r.year = k)) →
        (⟨k, none, none, some 0⟩ : AggRow Int) ∈ aggregate_differences rows a D)) := by
  refine ⟨?_, ?_, ?_⟩
  · intro rows y D hD k hk
    simp only [aggregate_spatially]
    refine ⟨pipeline_countP _ _ _ hD hk, fun habs => ?_⟩
    exact pipeline_mem_absent _ _ _ hk (spatial_key_absent rows y habs)
  · intro rows a D hD k hk
    simp only [aggregate_temporarly]
    refine ⟨?_, fun habs => ?_⟩
    · rw [countP_sortByKey]
      exact pipeline_countP _ _ _ hD hk
    · rw [mem_sortByKey]
      exact pipeline_mem_absent _ _ _ hk (area_key_absent rows a habs)
  · intro rows a D hD k hk
    simp only [aggregate_differences]
    refine ⟨?_, fun habs => ?_⟩
    · rw [countP_sortByKey]
      exact pipeline_countP _ _ _ hD hk
    · rw [mem_sortByKey]
      exact pipeline_mem_absent _ _ _ hk (area_key_absent rows a habs)

/-- Witness for C1: one measurement of area "A" in year 2000, domain
{"A", "B"} — the absent key "B" appears in exactly one row, null-padded with
count 0. -/
theorem c1_full_domain_alignment_witness :
    (aggregate_spatially [rowA2000] 2000 ["A", "B"]).countP (fun r => r.key == "B") = 1 ∧
    (⟨"B", none, none, some 0⟩ : AggRow String) ∈ aggregate_spatially [rowA2000] 2000 ["A", "B"] := by
  have h := c1_full_domain_alignment.1 [rowA2000] 2000 ["A", "B"] (by decide) "B" (by decide)
  exact ⟨h.1, h.2 (by decide)⟩

/-- C2: in every output row of the spatial, the temporal and the difference
aggregation, the stddev cell is null whenever the station count of that row is
strictly below 2 — in particular it is null, never 0, for a single-observation
group, regardless of the underlying values. -/
theorem c2_stddev_null_below_two :
    (∀ (rows : List Row) (y : Int) (D : List String),
      ∀ r ∈ aggregate_spatially rows y D, ∀ n, r.stations = some n → n < 2 →
        r.stddev = none) ∧
    (∀ (rows : List Row) (a : String) (D : List Int),
      ∀ r ∈ aggregate_temporarly rows a D, ∀ n, r.stations = some n → n < 2 →
        r.stddev = none) ∧
    (∀ (rows : List Row) (a : String) (D : List Int),
      ∀ r ∈ aggregate_differences rows a D, ∀ n, r.stations = some n → n < 2 →
        r.stddev = none) := by
  refine ⟨?_, ?_, ?_⟩
  · intro rows y D r hr n hn hn2
    simp only [aggregate_spatially] at hr
    obtain ⟨k, hk⟩ := pipeline_rows _ _ _ _ hr
    subst hk
    exact canonRow_stddev_null _ _ _ k n hn hn2
  · intro rows a D r hr n hn hn2
    simp only [aggregate_temporarly] at hr
    rw [mem_sortByKey] at hr
    obtain ⟨k, hk⟩ := pipeline_rows _ _ _ _ hr
    subst hk
    exact canonRow_stddev_null _ _ _ k n hn hn2
  · intro rows a D r hr n hn hn2
    simp only [aggregate_differences] at hr
    rw [mem_sortByKey] at hr
    obtain ⟨k, hk⟩ := pipeline_rows _ _ _ _ hr
    subst hk
    exact canonRow_stddev_null _ _ _ k n hn hn2

/-- Witness for C2: a single observation (area "A", year 2000, value 10) gives
an output row with count 1 and a defined mean, and its stddev is null. -/
theorem c2_stddev_null_below_two_witness :
    (⟨2000, some 10, none, some 1⟩ : AggRow Int).stddev = none := by
  have hmem : (⟨2000, some 10, none, some 1⟩ : AggRow Int) ∈
      aggregate_temporarly [rowA2000] "A" [2000] := by
    have : aggregate_temporarly [rowA2000] "A" [2000] =
        [⟨2000, some 10, none, some 1⟩] := by
      simp [aggregate_temporarly, groupAgg, outerJoin, fillnaStations, sortByKey,
        orderedInsertKey, meanAgg, stddevAgg, rowA2000, List.dedup]
    rw [this]
    exact List.mem_singleton.mpr rfl
  exact c2_stddev_null_below_two.2.1 [rowA2000] "A" [2000] _ hmem 1 rfl (by decide)

theorem running_mean_mem_absent (rows : List Row) (a : String) {D : List Int} {k : Int}
    (hk : k ∈ D)
    (habs : ∀ r ∈ rows, ¬(r.area = some a ∧ r.year = k)) :
    (⟨k, none⟩ : RunRow) ∈ aggregate_running_mean rows a D := by
  simp only [aggregate_running_mean]
  rw [mem_sortByKey, List.mem_append]
  right
  rw [List.mem_map]
  refine ⟨k, ?_, rfl⟩
  rw [List.mem_filter]
  refine ⟨hk, ?_⟩
  simp only [List.contains, Bool.not_eq_true', List.elem_eq_mem, decide_eq_false_iff_not]
  rw [List.mem_dedup, List.mem_map]
  rintro ⟨r, hr, hy⟩
  rw [List.mem_filter, beq_iff_eq] at hr
  exact habs r hr.1 ⟨hr.2, hy⟩

/-- C3 (corrected): for every output row of the running-mean aggregation whose
year has at least one measurement row in the area, the running value equals the
mean of the value entries with year in the inclusive range [Y-6, Y]; a domain
year with no measurement row of its own appears with a null running mean after
the outer join (even when earlier years fall inside its window); in particular
every domain year with an empty window appears with a null mean. -/
theorem c3_running_mean_window :
    (∀ (rows : List Row) (a : String) (D : List Int),
      ∀ rr ∈ aggregate_running_mean rows a D,
        (∃ r ∈ rows.filter (fun r => r.area == some a), r.year = rr.year) →
          rr.running = windowMean (rows.filter (fun r => r.area == some a)) rr.year) ∧
    (∀ (rows : List Row) (a : String) (D : List Int), ∀ y ∈ D,
      ((rows.filter (fun r => r.area == some a)).filter
          (fun s => decide (y - 6 ≤ s.year) && decide (s.year ≤ y))).filterMap
          (fun r => r.value) = [] →
        (⟨y, none⟩ : RunRow) ∈ aggregate_running_mean rows a D) := by
  constructor
  · intro rows a D rr hrr hex
    simp only [aggregate_running_mean] at hrr
    rw [mem_sortByKey, List.mem_append] at hrr
    rcases hrr with hrr | hrr
    · obtain ⟨y, hy, hmk⟩ := List.mem_map.mp hrr
      rw [← hmk]
    · obtain ⟨y, hy, hmk⟩ := List.mem_map.mp hrr
      rw [List.mem_filter] at hy
      exfalso
      obtain ⟨r, hr, hyr⟩ := hex
      have : rr.year ∈ ((rows.filter (fun r => r.area == some a)).map
          (fun r => r.year)).dedup := by
        rw [List.mem_dedup, List.mem_map]
        exact ⟨r, hr, hyr⟩
      rw [← hmk] at this
      revert this
      simp only [List.contains, Bool.not_eq_true', List.elem_eq_mem,
        decide_eq_false_iff_not] at hy
      exact hy.2
  · intro rows a D y hy hwin
    by_cases hdata : y ∈ ((rows.filter (fun r => r.area == some a)).map
        (fun r => r.year)).dedup
    · simp only [aggregate_running_mean]
      rw [mem_sortByKey, List.mem_append]
      left
      rw [List.mem_map]
      refine ⟨y, hdata, ?_⟩
      rw [windowMean, hwin]
      rfl
    · simp only [aggregate_running_mean]
      rw [mem_sortByKey, List.mem_append]
      right
      rw [List.mem_map]
      refine ⟨y, ?_, rfl⟩
      rw [List.mem_filter]
      refine ⟨hy, ?_⟩
      simp only [List.contains, Bool.not_eq_true', List.elem_eq_mem,
        decide_eq_false_iff_not]
      exact hdata

/-- Counterexample to C3 as stated: one measurement (area "A", year 2000,
value 10), full year domain {2000, 2001}.  The year 2001 is present in the
output with a null running mean, yet the arithmetic mean of the value entries
with year in [1995, 2001] is 10 — the outer join leaves a domain year without
rows of its own null even when its window overlaps the data. -/
theorem c3_running_mean_counterexample :
    aggregate_running_mean [rowA2000] "A" [2000, 2001] =
      [⟨2000, some 10⟩, ⟨2001, none⟩] ∧
    windowMean ([rowA2000].filter (fun r => r.area == some "A")) 2001 = some 10 := by
  constructor
  · simp [aggregate_running_mean, windowMean, meanAgg, sortByKey, orderedInsertKey,
      rowA2000, List.dedup]
  · simp [windowMean, meanAgg, rowA2000]

/-- Witness for C3: in an empty measurement table every domain year has an
empty window and appears with a null running mean. -/
theorem c3_running_mean_window_witness :
    (⟨2000, none⟩ : RunRow) ∈ aggregate_running_mean [] "A" [2000] :=
  c3_running_mean_window.2 [] "A" [2000] 2000 (by decide) rfl

/-- C4 (corrected): in the spatial, the temporal and the difference
aggregation every output row carries a non-null station count (absent data is
coerced to 0 by the `fillna` after the outer join, with null mean and null
stddev, as the difference conjunct shows); the running-mean output, however,
carries no count column at all — only the year and the running mean, which
stays null (not zero) for a domain year without data. -/
theorem c4_count_never_null :
    (∀ (rows : List Row) (y : Int) (D : List String),
      ∀ r ∈ aggregate_spatially rows y D, r.stations.isSome) ∧
    (∀ (rows : List Row) (a : String) (D : List Int),
      ∀ r ∈ aggregate_temporarly rows a D, r.stations.isSome) ∧
    (∀ (rows : List Row) (a : String) (D : List Int),
      ∀ r ∈ aggregate_differences rows a D, r.stations.isSome) ∧
    cols.stations ∉ aggregate_running_mean_columns ∧
    (∀ (rows : List Row) (a : String) (D : List Int), ∀ k ∈ D,
      (∀ r ∈ rows, ¬(r.area = some a ∧ r.year = k)) →
        (⟨k, none⟩ : RunRow) ∈ aggregate_running_mean rows a D) ∧
    (∀ (rows : List Row) (a : String) (D : List Int), ∀ k ∈ D,
      (∀ r ∈ rows, ¬(r.area = some a ∧ r.year = k)) →
        (⟨k, none, none, some 0⟩ : AggRow Int) ∈ aggregate_differences rows a D) := by
  refine ⟨?_, ?_, ?_, by decide, ?_, ?_⟩
  · intro rows y D r hr
    simp only [aggregate_spatially] at hr
    obtain ⟨k, hk⟩ := pipeline_rows _ _ _ _ hr
    rw [hk]
    exact canonRow_stations_isSome _ _ _ k
  · intro rows a D r hr
    simp only [aggregate_temporarly] at hr
    rw [mem_sortByKey] at hr
    obtain ⟨k, hk⟩ := pipeline_rows _ _ _ _ hr
    rw [hk]
    exact canonRow_stations_isSome _ _ _ k
  · intro rows a D r hr
    simp only [aggregate_differences] at hr
    rw [mem_sortByKey] at hr
    obtain ⟨k, hk⟩ := pipeline_rows _ _ _ _ hr
    rw [hk]
    exact canonRow_stations_isSome _ _ _ k
  · intro rows a D k hk habs
    exact running_mean_mem_absent rows a hk habs
  · intro rows a D k hk habs
    simp only [aggregate_differences]
    rw [mem_sortByKey]
    exact pipeline_mem_absent _ _ _ hk (area_key_absent rows a habs)

/-- Counterexample to C4 as stated: the running-mean output has no station
count column, so its "count aggregate" cannot be coerced to 0 — the claim's
premise fails for that operation (the other three do carry the column). -/
theorem c4_count_never_null_counterexample :
    cols.stations ∉ aggregate_running_mean_columns ∧
    cols.stations ∈ aggregate_spatially_columns ∧
    cols.stations ∈ aggregate_temporarly_columns ∧
    cols.stations ∈ aggregate_differences_columns := by decide

/-- Witness for C4: concrete instances of the non-null count and of the
running-mean row that stays null for a year without data. -/
theorem c4_count_never_null_witness :
    (⟨"B", none, none, some 0⟩ : AggRow String).stations.isSome ∧
    (⟨2001, none⟩ : RunRow) ∈ aggregate_running_mean [rowA2000] "A" [2000, 2001] := by
  constructor
  · exact c4_count_never_null.1 [rowA2000] 2000 ["A", "B"] _ (by decide)
  · exact c4_count_never_null.2.2.2.2.1 [rowA2000] "A" [2000, 2001] 2001 (by decide) (by decide)

/-- C8: the pivot computation groups the rows with year in the inclusive
interval [start_year, end_year] by station and returns each station's mean
temperature over that interval; a station with no row in the interval does not
appear in the result; a station whose only row in the interval carries
temperature t gets the pivot t. -/
theorem c8_pivotal_mean :
    ∀ (rows : List Row) (s e : Int),
      (∀ p ∈ get_pivotal_mean rows s e,
        p.pivot_temp = meanAgg (((rows.filter
            (fun r => decide (s ≤ r.year) && decide (r.year ≤ e))).filter
            (fun r => r.sdo_id == p.sdo_id)).filterMap (fun r => r.temperature))) ∧
      (∀ sid : Nat, (∀ r ∈ rows, r.sdo_id = sid → ¬(s ≤ r.year ∧ r.year ≤ e)) →
        ∀ p ∈ get_pivotal_mean rows s e, p.sdo_id ≠ sid) ∧
      (∀ (r0 : Row) (t : Rat),
        (rows.filter (fun r => decide (s ≤ r.year) && decide (r.year ≤ e))).filter
            (fun r => r.sdo_id == r0.sdo_id) = [r0] →
          r0.temperature = some t →
          PivotRow.mk r0.sdo_id (some t) ∈ get_pivotal_mean rows s e) := by
  intro rows s e
  refine ⟨?_, ?_, ?_⟩
  · intro p hp
    simp only [get_pivotal_mean] at hp
    obtain ⟨sid, hsid, hmk⟩ := List.mem_map.mp hp
    rw [← hmk]
  · intro sid habs p hp hpsid
    simp only [get_pivotal_mean] at hp
    obtain ⟨sid2, hsid2, hmk⟩ := List.mem_map.mp hp
    have hsid2' : sid2 = sid := by rw [← hpsid, ← hmk]
    subst hsid2'
    rw [List.mem_dedup, List.mem_map] at hsid2
    obtain ⟨r, hr, hrs⟩ := hsid2
    rw [List.mem_filter] at hr
    obtain ⟨hrows, hpred⟩ := hr
    simp only [Bool.and_eq_true, decide_eq_true_eq] at hpred
    exact habs r hrows hrs hpred
  · intro r0 t hfilter ht
    have hr0 : r0 ∈ rows.filter (fun r => decide (s ≤ r.year) && decide (r.year ≤ e)) := by
      have : r0 ∈ (rows.filter (fun r => decide (s ≤ r.year) && decide (r.year ≤ e))).filter
          (fun r => r.sdo_id == r0.sdo_id) := by
        rw [hfilter]
        exact List.mem_singleton.mpr rfl
      exact (List.mem_filter.mp this).1
    simp only [get_pivotal_mean]
    rw [List.mem_map]
    refine ⟨r0.sdo_id, ?_, ?_⟩
    · rw [List.mem_dedup, List.mem_map]
      exact ⟨r0, hr0, rfl⟩
    · rw [hfilter]
      simp [meanAgg, ht]

/-- Witness for C8: station 3 has exactly one row in [2000, 2005], with
temperature 7, and receives pivot 7. -/
theorem c8_pivotal_mean_witness :
    PivotRow.mk 3 (some 7) ∈ get_pivotal_mean [rowC2001] 2000 2005 := by
  have h := (c8_pivotal_mean [rowC2001] 2000 2005).2.2 rowC2001 7 rfl rfl
  exact h

/-- C9: the difference aggregation equals its specification: restrict to the
area's rows, take per-row differences of observed value and per-station pivot,
aggregate mean/stddev/count of the differences per year of the outer join's
key column (data years joined with the full year domain), sorted ascending by
year — and the output is indeed ascending in the year key. -/
theorem c9_difference_refines_spec :
    ∀ (rows : List Row) (area : String) (D : List Int),
      aggregate_differences rows area D = aggregate_differences_spec rows area D ∧
      (aggregate_differences rows area D).Pairwise (fun p q => p.key ≤ q.key) := by
  intro rows area D
  constructor
  · simp only [aggregate_differences, aggregate_differences_spec]
    rw [pipeline_canon]
    have hkeys : ((rows.filter (fun r => r.area == some area)).filterMap
        (fun r => some r.year)) = ((rows.filter (fun r => r.area == some area)).map
        (fun r => r.year)) := by
      rw [show (fun r : Row => some r.year) = some ∘ (fun r : Row => r.year) from rfl,
        List.filterMap_eq_map]
    rw [hkeys, sortByKey_map]
    rfl
  · simp only [aggregate_differences]
    exact sortByKey_pairwise _ _

/-- C5: when the geometry is a list of several rings at the same nesting
level, the containment probe builds a polygon from the first ring only and
returns that ring's result immediately, whatever the later rings are; in
particular the point (5,5), outside the first ring but inside the second,
yields false for the two-ring geometry although the second ring alone
contains it. -/
theorem c5_first_ring_only :
    (∀ (lon lat x y : Rat) (vrest others : List GeoVal) (ring : List (Rat × Rat)),
      buildRing (.lst [.num x, .num y] :: vrest) = .ok ring →
        check_in_polygons lon lat (.lst (.lst (.lst [.num x, .num y] :: vrest) :: others)) =
          .ok (pointInRing lon lat ring)) ∧
    check_in_polygons 5 5 (.lst [farRing, squareRing]) = .ok false ∧
    check_in_polygons 5 5 (.lst [squareRing]) = .ok true := by
  refine ⟨?_, ?_, ?_⟩
  · intro lon lat x y vrest others ring h
    simp only [check_in_polygons, h]
  · simp only [check_in_polygons, farRing, squareRing, buildRing, buildRingAux,
      buildCoordPair, pointInRing, ringEdges, edgeCrosses]
    norm_num
  · simp only [check_in_polygons, squareRing, buildRing, buildRingAux,
      buildCoordPair, pointInRing, ringEdges, edgeCrosses]
    norm_num

/-- Witness for C5: the first (and only) ring of a one-ring geometry is the
one whose containment result is returned. -/
theorem c5_first_ring_only_witness :
    check_in_polygons 0 0
        (.lst [.lst [.lst [.num 20, .num 20], .lst [.num 20, .num 30],
          .lst [.num 30, .num 30], .lst [.num 30, .num 20]]]) =
      .ok (pointInRing 0 0 [(20, 20), (20, 30), (30, 30), (30, 20)]) :=
  c5_first_ring_only.1 0 0 20 20
    [.lst [.num 20, .num 30], .lst [.num 30, .num 30], .lst [.num 30, .num 20]] []
    [(20, 20), (20, 30), (30, 30), (30, 20)] rfl

/-- C6 (corrected): non-list geometry values and non-list elements at the
probed positions degrade to "point not contained"; an empty list at a probed
position, however, raises an IndexError from `polygon[0]`, and such an
exception propagates out of the area lookup instead of producing the all-null
tuple. -/
theorem c6_malformed_geometry :
    (∀ (lon lat q : Rat), check_in_polygons lon lat (.num q) = .ok false) ∧
    (∀ (lon lat : Rat) (s : String), check_in_polygons lon lat (.str s) = .ok false) ∧
    (∀ (lon lat : Rat), check_in_polygons lon lat (.lst []) = .ok false) ∧
    (∀ (lon lat q : Rat) (t : List GeoVal),
      check_in_polygons lon lat (.lst (.num q :: t)) = .ok false) ∧
    (∀ (lon lat : Rat) (s : String) (t : List GeoVal),
      check_in_polygons lon lat (.lst (.str s :: t)) = .ok false) ∧
    (∀ (lon lat q : Rat) (rest t : List GeoVal),
      check_in_polygons lon lat (.lst (.lst (.num q :: rest) :: t)) = .ok false) ∧
    (∀ (lon lat : Rat) (s : String) (rest t : List GeoVal),
      check_in_polygons lon lat (.lst (.lst (.str s :: rest) :: t)) = .ok false) ∧
    (∀ (lon lat : Rat) (t : List GeoVal),
      check_in_polygons lon lat (.lst (.lst [] :: t)) = .error .indexError) ∧
    (∀ (lon lat : Rat) (rest t : List GeoVal),
      check_in_polygons lon lat (.lst (.lst (.lst [] :: rest) :: t)) =
        .error .indexError) ∧
    (∀ (lon lat : Rat) (f : Feature) (fs : List Feature) (e : PyError),
      check_in_polygons lon lat f.geometry = .error e →
        find_area lon lat (f :: fs) = .error e) := by
  refine ⟨fun _ _ _ => rfl, fun _ _ _ => rfl, fun _ _ => rfl, fun _ _ _ _ => rfl,
    fun _ _ _ _ => rfl, fun _ _ _ _ _ => rfl, fun _ _ _ _ _ => rfl,
    fun _ _ _ => rfl, fun _ _ _ _ => rfl, ?_⟩
  intro lon lat f fs e h
  simp only [find_area, h]

/-- Counterexample to C6 as stated: the malformed geometry `[[]]` (a list
containing an empty list) does not degrade to "not contained": the probe of
`polygon[0]` raises an IndexError, which propagates out of the area lookup. -/
theorem c6_malformed_geometry_counterexample :
    check_in_polygons 0 0 (.lst [.lst []]) = .error .indexError ∧
    find_area 0 0 [⟨.lst [.lst []], "Germany", "Bavaria", "Munich"⟩] =
      .error .indexError :=
  ⟨rfl, rfl⟩

/-- Witness for C6: the propagation conjunct at the concrete catalog whose
single feature has the geometry `[[]]`. -/
theorem c6_malformed_geometry_witness :
    find_area 0 0 [⟨GeoVal.lst [GeoVal.lst []], "G", "S", "C"⟩] = .error .indexError :=
  c6_malformed_geometry.2.2.2.2.2.2.2.2.2 0 0 ⟨.lst [.lst []], "G", "S", "C"⟩ [] .indexError rfl

/-- C7: when no feature's containment probe raises, the area lookup returns
exactly what the specification describes — the names of the first feature in
catalog order whose geometry contains the point, with the fixed translation
applied to the nation only, or the all-null tuple — and on the spec's
one-feature square example, (5,5) resolves to
("Deutschland", "Bavaria", "Munich", "automated") while (50,50) resolves to
(null, null, null, "automated"). -/
theorem c7_area_lookup :
    (∀ (lon lat : Rat) (fs : List Feature),
      (∀ f ∈ fs, (check_in_polygons lon lat f.geometry).isOk) →
        find_area lon lat fs = .ok (findAreaSpec lon lat fs)) ∧
    find_area 5 5 [munichFeature] =
      .ok (some "Deutschland", some "Bavaria", some "Munich", "automated") ∧
    find_area 50 50 [munichFeature] = .ok (none, none, none, "automated") := by
  refine ⟨?_, ?_, ?_⟩
  · intro lon lat fs
    induction fs with
    | nil => intro h; rfl
    | cons f fs ih =>
      intro h
      have hf := h f (List.mem_cons_self f fs)
      cases hc : check_in_polygons lon lat f.geometry with
      | error e => rw [hc] at hf; cases hf
      | ok b =>
        cases b with
        | true =>
          rw [findAreaSpec, List.find?_cons_of_pos]
          · simp only [find_area, hc]
          · rw [hc]
            exact beq_self_eq_true _
        | false =>
          rw [findAreaSpec, List.find?_cons_of_neg]
          · simp only [find_area, hc]
            exact ih (fun g hg => h g (List.mem_cons_of_mem f hg))
          · rw [hc]
            decide
  · simp only [find_area, munichFeature, check_in_polygons, squareRing, buildRing,
      buildRingAux, buildCoordPair, pointInRing, ringEdges, edgeCrosses,
      translateNation, nation_dict, cols.automated]
    norm_num
  · simp only [find_area, munichFeature, check_in_polygons, squareRing, buildRing,
      buildRingAux, buildCoordPair, pointInRing, ringEdges, edgeCrosses,
      translateNation, nation_dict, cols.automated]
    norm_num

/-- Witness for C7: the refinement part at the spec's one-feature catalog,
whose single containment probe succeeds. -/
theorem c7_area_lookup_witness :
    find_area 5 5 [munichFeature] = .ok (findAreaSpec 5 5 [munichFeature]) := by
  apply c7_area_lookup.1
  intro f hf
  rw [List.mem_singleton] at hf
  subst hf
  have hc : check_in_polygons 5 5 munichFeature.geometry = .ok true := by
    simp only [munichFeature, check_in_polygons, squareRing, buildRing, buildRingAux,
      buildCoordPair, pointInRing, ringEdges, edgeCrosses]
    norm_num
  rw [hc]
  rfl

/-- C10: the recursive containment probe terminates on every finite geometry:
each recursive call descends into an element of the current list, so a fuel
budget exceeding the nesting depth along the probed path always suffices — the
fuel-indexed variant returns the fuel-free function's result instead of
running out. -/
theorem c10_containment_terminates :
    ∀ (lon lat : Rat) (g : GeoVal) (fuel : Nat), probeDepth g < fuel →
      checkFuel fuel lon lat g = some (check_in_polygons lon lat g) := by
  intro lon lat g fuel
  induction fuel generalizing g with
  | zero => intro h; exact absurd h (Nat.not_lt_zero _)
  | succ fuel ih =>
    intro h
    cases g with
    | num q => rfl
    | str s => rfl
    | lst l =>
      cases l with
      | nil => rfl
      | cons polygon t =>
        cases polygon with
        | num q => rfl
        | str s => rfl
        | lst pl =>
          cases pl with
          | nil => rfl
          | cons first r2 =>
            cases first with
            | num q => rfl
            | str s => rfl
            | lst fl =>
              cases fl with
              | nil => rfl
              | cons ff r3 =>
                cases ff with
                | num q =>
                  cases hb : buildRing (GeoVal.lst (GeoVal.num q :: r3) :: r2) with
                  | ok ring => simp only [checkFuel, check_in_polygons, hb]
                  | error e => simp only [checkFuel, check_in_polygons, hb]
                | str s =>
                  cases hb : buildRing (GeoVal.lst (GeoVal.str s :: r3) :: r2) with
                  | ok ring => simp only [checkFuel, check_in_polygons, hb]
                  | error e => simp only [checkFuel, check_in_polygons, hb]
                | lst l2 =>
                  show checkFuel fuel lon lat (.lst (.lst (.lst l2 :: r3) :: r2)) =
                    some (check_in_polygons lon lat (.lst (.lst (.lst l2 :: r3) :: r2)))
                  apply ih
                  simp only [probeDepth] at h ⊢
                  omega

/-- Witness for C10: fuel 4 exceeds the probed depth 3 of the one-polygon
square geometry, so the fuel-indexed probe returns the function's result. -/
theorem c10_containment_terminates_witness :
    checkFuel 4 5 5 (.lst [squareRing]) =
      some (check_in_polygons 5 5 (.lst [squareRing])) :=
  c10_containment_terminates 5 5 (.lst [squareRing]) 4 (by decide)

end WeatherData
